import Mathlib

/-!
Verification of the numeric routines of the ASTra example programs
(src/examples/complex_sample.c, src/examples/example.c).

Embedding choices: C double values are modelled by exact rationals.
On every input appearing in the claims, the C arithmetic coincides with
exact rational arithmetic up to the displayed precision, and the spec
states the values exactly.  C int values are modelled by mathematical
integers; the claims only involve inputs far below any overflow bound.
The remainder operator of C agrees with the Euclidean remainder of Lean
on the nonnegative operands reached by the primality loop.
-/

namespace ASTra

/-! ## Statistics component (complex_sample.c) -/

/-- THRESHOLD from complex_sample.c, the value 10.5. -/
def THRESHOLD : ℚ := 105 / 10

/-- calculate_mean from complex_sample.c: the loop sums arr[0..n-1]
and the function returns that sum divided by n. -/
def calculate_mean (arr : List ℚ) (n : ℤ) : ℚ :=
  (arr.take n.toNat).sum / (n : ℚ)

/-- calculate_variance from complex_sample.c: the loop sums
pow(arr[j] - mean, 2) for j in 0..n-1 and the function returns that
sum divided by n - 1.  For the exponent 2, pow(x, 2) is exactly x * x. -/
def calculate_variance (arr : List ℚ) (n : ℤ) (mean : ℚ) : ℚ :=
  ((arr.take n.toNat).map (fun x => (x - mean) ^ 2)).sum / ((n : ℚ) - 1)

/-- The DataSet structure of complex_sample.c: an id, the stored values,
and the derived average and variance fields. -/
structure DataSet where
  id : ℤ
  values : List ℚ
  average : ℚ
  variance : ℚ
deriving DecidableEq

/-- The two labels the classification step of process_data can print. -/
inductive Classification where
  | highVariability
  | normalVariability
deriving DecidableEq

/-- The threshold branch at the end of process_data: the high label when
the variance strictly exceeds THRESHOLD, the normal label otherwise. -/
def classify (v : ℚ) : Classification :=
  if v > THRESHOLD then Classification.highVariability
  else Classification.normalVariability

/-- Observable outcome of process_data: either the insufficient-data
diagnostic, or a completed analysis ending in a classification. -/
inductive ProcessResult where
  | insufficientData
  | analyzed (c : Classification)
deriving DecidableEq

/-- process_data from complex_sample.c: count <= 1 reports the
insufficient-data error and returns with the DataSet untouched;
otherwise the average field is set from calculate_mean, the variance
field from calculate_variance at that average, and the threshold
branch selects the label. -/
def process_data (data : DataSet) (count : ℤ) : DataSet × ProcessResult :=
  if count ≤ 1 then (data, ProcessResult.insufficientData)
  else
    let avg := calculate_mean data.values count
    let v := calculate_variance data.values count avg
    ({ data with average := avg, variance := v },
     ProcessResult.analyzed (classify v))

/-- The five sample values assigned in main of complex_sample.c. -/
def sampleValues : List ℚ := [125/10, 152/10, 98/10, 11, 145/10]

/-! ## Calculator component (example.c) -/

/-- factorial from example.c: returns 1 for n <= 1, and
n * factorial (n - 1) otherwise. -/
def factorial (n : ℤ) : ℤ :=
  if n ≤ 1 then 1 else n * factorial (n - 1)
termination_by n.toNat
decreasing_by
  simp only [not_le] at *
  omega

/-- The for-loop of is_prime in example.c: starting from the current
trial divisor i, while i * i <= num, return false as soon as
num % i == 0, otherwise move to i + 1; return true when the guard
fails. -/
def is_prime_loop (num i : ℤ) : Bool :=
  if i * i ≤ num then
    if num % i = 0 then false else is_prime_loop num (i + 1)
  else true
termination_by (num + 1 - i).toNat
decreasing_by
  rename_i h _
  have hi : i ≤ num := by
    rcases le_or_lt i 0 with h0 | h0
    · have := mul_self_nonneg i
      linarith
    · nlinarith
  omega

/-- is_prime from example.c: false for num < 2, otherwise the trial
division loop starting at i = 2. -/
def is_prime (num : ℤ) : Bool :=
  if num < 2 then false else is_prime_loop num 2

/-- The two diagnostics calculate can print before substituting the
sentinel 0. -/
inductive CalcError where
  | divisionByZero
  | invalidOperator
deriving DecidableEq

/-- Model of the libm pow call in the power branch of calculate,
restricted to the domain on which exact rational arithmetic represents
it: for an integral exponent b, pow a b is a raised to that integer.
Non-integral exponents produce irrational values outside the exact
rational model and are mapped to 0 here; no claim about them is settled
through this branch of the model. -/
def c_pow (a b : ℚ) : ℚ :=
  if b.den = 1 then a ^ b.num else 0

/-- calculate from example.c: dispatch over the operator character.
The division branch guards b != 0, printing the division-by-zero error
and returning 0 otherwise; the default branch prints the
invalid-operator error and returns 0.  The value part is the returned
double and the option part records which diagnostic, if any, was
printed. -/
def calculate (a b : ℚ) (op : Char) : ℚ × Option CalcError :=
  match op with
  | '+' => (a + b, none)
  | '-' => (a - b, none)
  | '*' => (a * b, none)
  | '/' => if b ≠ 0 then (a / b, none) else (0, some CalcError.divisionByZero)
  | '^' => (c_pow a b, none)
  | _ => (0, some CalcError.invalidOperator)

/-- The factorial branch of main in example.c: a negative input is
rejected with a diagnostic and factorial is not called; otherwise the
result of factorial is reported. -/
def factorial_checked (num : ℤ) : Option ℤ :=
  if num < 0 then none else some (factorial num)

/-- Reduction of a mathematical integer to the representative of its
class modulo 2 ^ 32 lying in the signed 32-bit range, the wraparound
behavior of int arithmetic on overflow. -/
def wrap32 (x : ℤ) : ℤ :=
  (x + 2 ^ 31) % 2 ^ 32 - 2 ^ 31

/-- factorial from example.c in the 32-bit int arithmetic the program
actually runs in: each multiplication is reduced to the signed 32-bit
range, so large inputs overflow, as the spec acknowledges. -/
def factorial32 (n : ℤ) : ℤ :=
  if n ≤ 1 then 1 else wrap32 (n * factorial32 (n - 1))
termination_by n.toNat
decreasing_by
  simp only [not_le] at *
  omega

/-- The factorial branch of main in example.c over the 32-bit model:
a negative input is rejected with a diagnostic and factorial is not
called; otherwise the result of factorial is reported. -/
def factorial32_checked (num : ℤ) : Option ℤ :=
  if num < 0 then none else some (factorial32 num)

/-! ## Shared evaluation lemmas -/

/-- Taking the first five elements of the five-element sample is the
whole sample. -/
theorem take_five_sample : List.take (Int.toNat 5) sampleValues = sampleValues := rfl

/-- The mean of the program sample is exactly 12.6. -/
theorem mean_sample : calculate_mean sampleValues 5 = 126 / 10 := by
  rw [calculate_mean, take_five_sample, sampleValues]
  norm_num

/-- The sample variance of the program sample at its mean is exactly
5.195: the squared deviations are 0.01, 6.76, 7.84, 2.56 and 3.61,
summing to 20.78, and 20.78 / 4 = 5.195. -/
theorem variance_sample :
    calculate_variance sampleValues 5 (126 / 10) = 5195 / 1000 := by
  rw [calculate_variance, take_five_sample, sampleValues]
  norm_num

/-! ## Claims -/

/-- Claim C2: for every integer n with 0 <= n, factorial satisfies the
recursive definition, namely factorial n = 1 for n <= 1 and
factorial n = n * factorial (n - 1) otherwise; moreover factorial 0 = 1,
factorial 1 = 1 and factorial 5 = 120. -/
theorem factorial_recursive_correct :
    (∀ n : ℤ, 0 ≤ n →
      (n ≤ 1 → factorial n = 1) ∧ (1 < n → factorial n = n * factorial (n - 1))) ∧
    factorial 0 = 1 ∧ factorial 1 = 1 ∧ factorial 5 = 120 := by
  refine ⟨fun n _ => ⟨fun h => ?_, fun h => ?_⟩, ?_, ?_, ?_⟩
  · rw [factorial.eq_def, if_pos h]
  · rw [factorial.eq_def, if_neg (by omega)]
  · rw [factorial.eq_def]; norm_num
  · rw [factorial.eq_def]; norm_num
  · rw [factorial.eq_def]; norm_num
    rw [factorial.eq_def]; norm_num
    rw [factorial.eq_def]; norm_num
    rw [factorial.eq_def]; norm_num
    rw [factorial.eq_def]; norm_num

/-- Witness for the hypotheses of the C2 theorem, at n = 5. -/
theorem factorial_recursive_correct_witness :
    factorial 5 = 5 * factorial (5 - 1) :=
  (factorial_recursive_correct.1 5 (by decide)).2 (by decide)

/-- Claim C10 counterexample: in the 32-bit arithmetic the program runs
in, the factorial of 17 wraps to the negative value -288522240, so on a
nonnegative input factorial does produce a negative result; the claim
that it never produces a negative or undefined result over all integers
fails. -/
theorem factorial32_overflow_counterexample :
    factorial32 17 = -288522240 ∧ factorial32 17 < 0 := by
  have e1 : factorial32 1 = 1 := by rw [factorial32.eq_def]; norm_num
  have e2 : factorial32 2 = 2 := by
    rw [factorial32.eq_def]; norm_num [e1, wrap32]
  have e3 : factorial32 3 = 6 := by
    rw [factorial32.eq_def]; norm_num [e2, wrap32]
  have e4 : factorial32 4 = 24 := by
    rw [factorial32.eq_def]; norm_num [e3, wrap32]
  have e5 : factorial32 5 = 120 := by
    rw [factorial32.eq_def]; norm_num [e4, wrap32]
  have e6 : factorial32 6 = 720 := by
    rw [factorial32.eq_def]; norm_num [e5, wrap32]
  have e7 : factorial32 7 = 5040 := by
    rw [factorial32.eq_def]; norm_num [e6, wrap32]
  have e8 : factorial32 8 = 40320 := by
    rw [factorial32.eq_def]; norm_num [e7, wrap32]
  have e9 : factorial32 9 = 362880 := by
    rw [factorial32.eq_def]; norm_num [e8, wrap32]
  have e10 : factorial32 10 = 3628800 := by
    rw [factorial32.eq_def]; norm_num [e9, wrap32]
  have e11 : factorial32 11 = 39916800 := by
    rw [factorial32.eq_def]; norm_num [e10, wrap32]
  have e12 : factorial32 12 = 479001600 := by
    rw [factorial32.eq_def]; norm_num [e11, wrap32]
  have e13 : factorial32 13 = 1932053504 := by
    rw [factorial32.eq_def]; norm_num [e12, wrap32]
  have e14 : factorial32 14 = 1278945280 := by
    rw [factorial32.eq_def]; norm_num [e13, wrap32]
  have e15 : factorial32 15 = 2004310016 := by
    rw [factorial32.eq_def]; norm_num [e14, wrap32]
  have e16 : factorial32 16 = 2004189184 := by
    rw [factorial32.eq_def]; norm_num [e15, wrap32]
  have e17 : factorial32 17 = -288522240 := by
    rw [factorial32.eq_def]; norm_num [e16, wrap32]
  exact ⟨e17, by omega⟩

/-- Claim C10 (amended): for every negative integer n, factorial n = 1,
the base case covering all negatives; the negative-input diagnostic
lives in the caller, which rejects negatives without invoking factorial
and forwards the factorial value on nonnegative input; and the result
is at least 1 on the inputs 0 <= n <= 12, exactly those whose factorial
fits the signed 32-bit representation, while beyond that range the
product overflows and can wrap negative. -/
theorem factorial32_negative_correct :
    (∀ n : ℤ, n < 0 → factorial32 n = 1) ∧
    (∀ n : ℤ, 0 ≤ n → n ≤ 12 → 1 ≤ factorial32 n) ∧
    (∀ n : ℤ, n < 0 → factorial32_checked n = none) ∧
    (∀ n : ℤ, 0 ≤ n → factorial32_checked n = some (factorial32 n)) := by
  refine ⟨fun n h => ?_, fun n h0 h12 => ?_, fun n h => ?_, fun n h => ?_⟩
  · rw [factorial32.eq_def, if_pos (by omega)]
  · have e0 : factorial32 0 = 1 := by rw [factorial32.eq_def]; norm_num
    have e1 : factorial32 1 = 1 := by rw [factorial32.eq_def]; norm_num
    have e2 : factorial32 2 = 2 := by
      rw [factorial32.eq_def]; norm_num [e1, wrap32]
    have e3 : factorial32 3 = 6 := by
      rw [factorial32.eq_def]; norm_num [e2, wrap32]
    have e4 : factorial32 4 = 24 := by
      rw [factorial32.eq_def]; norm_num [e3, wrap32]
    have e5 : factorial32 5 = 120 := by
      rw [factorial32.eq_def]; norm_num [e4, wrap32]
    have e6 : factorial32 6 = 720 := by
      rw [factorial32.eq_def]; norm_num [e5, wrap32]
    have e7 : factorial32 7 = 5040 := by
      rw [factorial32.eq_def]; norm_num [e6, wrap32]
    have e8 : factorial32 8 = 40320 := by
      rw [factorial32.eq_def]; norm_num [e7, wrap32]
    have e9 : factorial32 9 = 362880 := by
      rw [factorial32.eq_def]; norm_num [e8, wrap32]
    have e10 : factorial32 10 = 3628800 := by
      rw [factorial32.eq_def]; norm_num [e9, wrap32]
    have e11 : factorial32 11 = 39916800 := by
      rw [factorial32.eq_def]; norm_num [e10, wrap32]
    have e12 : factorial32 12 = 479001600 := by
      rw [factorial32.eq_def]; norm_num [e11, wrap32]
    interval_cases n <;> omega
  · rw [factorial32_checked, if_pos h]
  · rw [factorial32_checked, if_neg (by omega)]

/-- Witness for the hypotheses of the C10 amended theorem, at n = -3,
n = 12 and n = 5. -/
theorem factorial32_negative_correct_witness :
    factorial32 (-3) = 1 ∧ 1 ≤ factorial32 12 ∧
    factorial32_checked (-3) = none ∧
    factorial32_checked 5 = some (factorial32 5) :=
  ⟨factorial32_negative_correct.1 (-3) (by decide),
   factorial32_negative_correct.2.1 12 (by decide) (by decide),
   factorial32_negative_correct.2.2.1 (-3) (by decide),
   factorial32_negative_correct.2.2.2 5 (by decide)⟩

/-- Claim C6: the classification returns the high-variability label if
and only if the variance strictly exceeds 10.5, and the
normal-variability label if and only if the variance is at most 10.5;
in particular the boundary value 10.5 itself is classified normal. -/
theorem classify_correct :
    ∀ v : ℚ,
      (classify v = Classification.highVariability ↔ 105 / 10 < v) ∧
      (classify v = Classification.normalVariability ↔ v ≤ 105 / 10) := by
  intro v
  rw [classify, THRESHOLD]
  split
  · rename_i h
    simp [h, not_le.mpr h]
  · rename_i h
    simp [h, not_lt.mp h]

/-- Claim C4: dividing any a by zero yields the sentinel 0 together with
the division-by-zero diagnostic, and any operator outside the five
recognized symbols yields the sentinel 0 together with the
invalid-operator diagnostic. -/
theorem calculate_error_handling :
    (∀ a : ℚ, calculate a 0 '/' = (0, some CalcError.divisionByZero)) ∧
    (∀ (a b : ℚ) (op : Char),
      op ≠ '+' → op ≠ '-' → op ≠ '*' → op ≠ '/' → op ≠ '^' →
      calculate a b op = (0, some CalcError.invalidOperator)) := by
  constructor
  · intro a
    rw [calculate]
    norm_num
  · intro a b op h1 h2 h3 h4 h5
    rw [calculate.eq_def]
    split
    · exact absurd rfl h1
    · exact absurd rfl h2
    · exact absurd rfl h3
    · exact absurd rfl h4
    · exact absurd rfl h5
    · rfl

/-- Witness for the hypotheses of the C4 theorem, at the inputs
(6, 0, division) and (6, 2, percent). -/
theorem calculate_error_handling_witness :
    calculate 6 0 '/' = (0, some CalcError.divisionByZero) ∧
    calculate 6 2 '%' = (0, some CalcError.invalidOperator) :=
  ⟨calculate_error_handling.1 6,
   calculate_error_handling.2 6 2 '%' (by decide) (by decide) (by decide)
     (by decide) (by decide)⟩

/-- On an integral exponent, the exactly representable fragment of the
rational model, the power branch of calculate returns the base raised
to that integer; in particular calculate 2 3 with the power operator
returns 8.  The behavior of the library power function on fractional
and negative exponents, which involves irrational values and
floating-point domain errors, has no image in this exact embedding and
is not asserted here. -/
theorem calculate_pow_int :
    calculate 2 3 '^' = (8, none) ∧
    ∀ (a : ℚ) (b : ℤ), calculate a (b : ℚ) '^' = (a ^ b, none) := by
  constructor
  · rw [calculate]
    norm_num [c_pow]
  · intro a b
    rw [calculate, c_pow]
    simp

/-- Claim C5: for every sequence and every n with 1 <= n, the mean is
the sum of the first n elements divided by n, equivalently n times the
mean recovers that sum; and the mean of the program sample is exactly
12.6. -/
theorem mean_correct :
    (∀ (arr : List ℚ) (n : ℤ), 1 ≤ n →
      calculate_mean arr n = (arr.take n.toNat).sum / (n : ℚ) ∧
      (n : ℚ) * calculate_mean arr n = (arr.take n.toNat).sum) ∧
    calculate_mean sampleValues 5 = 126 / 10 := by
  refine ⟨fun arr n hn => ⟨rfl, ?_⟩, mean_sample⟩
  have hn0 : (n : ℚ) ≠ 0 := Int.cast_ne_zero.mpr (by omega)
  rw [calculate_mean, mul_comm, div_mul_cancel₀ _ hn0]

/-- Witness for the hypotheses of the C5 theorem, at the program
sample with n = 5. -/
theorem mean_correct_witness :
    (5 : ℚ) * calculate_mean sampleValues 5 =
      (sampleValues.take (Int.toNat 5)).sum :=
  (mean_correct.1 sampleValues 5 (by decide)).2

/-- Claim C1 counterexample: on the sample of the program the computed
variance is exactly 5.195, which is not approximately 4.765: the two
values differ by 0.43, far beyond the displayed precision. -/
theorem variance_sample_counterexample :
    calculate_variance sampleValues 5 (calculate_mean sampleValues 5) = 5195 / 1000 ∧
    ¬ |calculate_variance sampleValues 5 (calculate_mean sampleValues 5)
        - 4765 / 1000| < 1 / 10 := by
  have hv : calculate_variance sampleValues 5 (calculate_mean sampleValues 5)
      = 5195 / 1000 := by
    rw [mean_sample, variance_sample]
  refine ⟨hv, ?_⟩
  rw [hv]
  have hd : (5195 / 1000 : ℚ) - 4765 / 1000 = 43 / 100 := by norm_num
  rw [hd, abs_of_nonneg (by norm_num)]
  norm_num

/-- Claim C1 (amended): for every sequence, every n with 2 <= n and
every m, the variance times (n - 1) recovers the sum of squared
deviations from m over the first n elements, so the variance is that
sum divided by n - 1; on the program sample with n = 5 and the computed
mean 12.6, the divisor is 4 and the variance is exactly 5.195, and the
classification is normal because 5.195 <= 10.5. -/
theorem variance_correct :
    (∀ (arr : List ℚ) (n : ℤ) (m : ℚ), 2 ≤ n →
      calculate_variance arr n m =
        ((arr.take n.toNat).map (fun x => (x - m) ^ 2)).sum / ((n : ℚ) - 1) ∧
      ((n : ℚ) - 1) * calculate_variance arr n m =
        ((arr.take n.toNat).map (fun x => (x - m) ^ 2)).sum) ∧
    calculate_variance sampleValues 5 (calculate_mean sampleValues 5) = 5195 / 1000 ∧
    (5195 / 1000 : ℚ) ≤ 105 / 10 ∧
    classify (calculate_variance sampleValues 5 (calculate_mean sampleValues 5)) =
      Classification.normalVariability := by
  have hv : calculate_variance sampleValues 5 (calculate_mean sampleValues 5)
      = 5195 / 1000 := by
    rw [mean_sample, variance_sample]
  refine ⟨fun arr n m hn => ⟨rfl, ?_⟩, hv, by norm_num, ?_⟩
  · have hn0 : (n : ℚ) - 1 ≠ 0 := by
      have : (1 : ℚ) < (n : ℚ) := by exact_mod_cast (by omega : (1 : ℤ) < n)
      linarith
    rw [calculate_variance, mul_comm, div_mul_cancel₀ _ hn0]
  · rw [hv, classify, THRESHOLD]
    norm_num

/-- Witness for the hypotheses of the C1 amended theorem, at the
program sample with n = 5 and m = 0. -/
theorem variance_correct_witness :
    ((5 : ℚ) - 1) * calculate_variance sampleValues 5 0 =
      ((sampleValues.take (Int.toNat 5)).map (fun x => (x - 0) ^ 2)).sum :=
  (variance_correct.1 sampleValues 5 0 (by decide)).2

/-- Claim C7: with count <= 1 process_data reports the insufficient-data
diagnostic and returns the DataSet unchanged, computing nothing; with
2 <= count it sets the average from the mean, the variance from the
variance at that average, and ends with the classification of that
variance, in that order of dependency. -/
theorem process_data_correct :
    ∀ (data : DataSet) (count : ℤ),
      (count ≤ 1 → process_data data count = (data, ProcessResult.insufficientData)) ∧
      (2 ≤ count →
        process_data data count =
          ({ data with
              average := calculate_mean data.values count,
              variance := calculate_variance data.values count
                (calculate_mean data.values count) },
           ProcessResult.analyzed (classify (calculate_variance data.values count
             (calculate_mean data.values count))))) := by
  intro data count
  constructor
  · intro h
    rw [process_data, if_pos h]
  · intro h
    rw [process_data, if_neg (by omega)]

/-- Witness for the hypotheses of the C7 theorem, at the DataSet of the
program with count 1 and count 5. -/
theorem process_data_correct_witness :
    process_data ⟨101, sampleValues, 0, 0⟩ 1 =
      (⟨101, sampleValues, 0, 0⟩, ProcessResult.insufficientData) ∧
    process_data ⟨101, sampleValues, 0, 0⟩ 5 =
      (⟨101, sampleValues, 126 / 10, 5195 / 1000⟩,
       ProcessResult.analyzed Classification.normalVariability) := by
  constructor
  · exact (process_data_correct ⟨101, sampleValues, 0, 0⟩ 1).1 (by decide)
  · rw [(process_data_correct ⟨101, sampleValues, 0, 0⟩ 5).2 (by decide),
      mean_sample, variance_sample, classify, THRESHOLD]
    norm_num

/-- Claim C9: every numeric routine is a pure, deterministic function
of its arguments: two invocations on identical inputs agree; the
statistics of process_data depend only on the stored values and the
count, not on the id or the previously stored average and variance;
and process_data never mutates the id or the stored values, its only
effect being the two derived fields and the reported outcome. -/
theorem routines_pure :
    (∀ (arr : List ℚ) (n : ℤ), calculate_mean arr n = calculate_mean arr n) ∧
    (∀ (arr : List ℚ) (n : ℤ) (m : ℚ),
      calculate_variance arr n m = calculate_variance arr n m) ∧
    (∀ v : ℚ, classify v = classify v) ∧
    (∀ n : ℤ, factorial n = factorial n) ∧
    (∀ n : ℤ, is_prime n = is_prime n) ∧
    (∀ (a b : ℚ) (op : Char), calculate a b op = calculate a b op) ∧
    (∀ (d₁ d₂ : DataSet) (c : ℤ), d₁.values = d₂.values →
      (process_data d₁ c).1.id = d₁.id ∧
      (process_data d₁ c).1.values = d₁.values ∧
      (process_data d₁ c).2 = (process_data d₂ c).2 ∧
      (2 ≤ c →
        (process_data d₁ c).1.average = (process_data d₂ c).1.average ∧
        (process_data d₁ c).1.variance = (process_data d₂ c).1.variance)) := by
  refine ⟨fun _ _ => rfl, fun _ _ _ => rfl, fun _ => rfl, fun _ => rfl,
    fun _ => rfl, fun _ _ _ => rfl, ?_⟩
  intro d₁ d₂ c hv
  by_cases h : c ≤ 1
  · rw [process_data, process_data, if_pos h, if_pos h]
    exact ⟨rfl, rfl, rfl, fun h2 => absurd h2 (by omega)⟩
  · rw [process_data, process_data, if_neg h, if_neg h, hv]
    exact ⟨rfl, rfl, rfl, fun _ => ⟨rfl, rfl⟩⟩

/-- Witness for the hypotheses of the C9 theorem: two DataSets sharing
the sample values but differing in id and in the stored average and
variance produce the same analysis outcome at count 5. -/
theorem routines_pure_witness :
    (process_data ⟨1, sampleValues, 0, 0⟩ 5).2 =
      (process_data ⟨2, sampleValues, 3, 4⟩ 5).2 :=
  (routines_pure.2.2.2.2.2.2 ⟨1, sampleValues, 0, 0⟩ ⟨2, sampleValues, 3, 4⟩
    5 rfl).2.2.1

/-- The trial division loop of is_prime answers true exactly when no
candidate divisor from its starting point onward, within the square
bound, divides the number.  Stated with an explicit bound k on the
number of remaining candidates to drive the induction. -/
theorem is_prime_loop_iff (num : ℤ) :
    ∀ (k : ℕ) (j : ℤ), 1 ≤ j → (num + 1 - j).toNat ≤ k →
      (is_prime_loop num j = true ↔
        ∀ i : ℤ, j ≤ i → i * i ≤ num → ¬ (i ∣ num)) := by
  intro k
  induction k with
  | zero =>
    intro j hj hk
    have hjn : num < j := by omega
    have hjj : j ≤ j * j := le_mul_of_one_le_left (by omega) hj
    rw [is_prime_loop.eq_def, if_neg (by omega)]
    constructor
    · intro _ i hi hii _
      have h1 : i ≤ i * i := le_mul_of_one_le_left (by omega) (by omega)
      omega
    · intro _
      rfl
  | succ k ih =>
    intro j hj hk
    rw [is_prime_loop.eq_def]
    by_cases hguard : j * j ≤ num
    · rw [if_pos hguard]
      have hjj : j ≤ j * j := le_mul_of_one_le_left (by omega) hj
      have hjnum : j ≤ num := le_trans hjj hguard
      by_cases hmod : num % j = 0
      · rw [if_pos hmod]
        constructor
        · intro hfalse
          exact absurd hfalse (by decide)
        · intro hall
          exact absurd (Int.dvd_of_emod_eq_zero hmod)
            (hall j le_rfl hguard)
      · rw [if_neg hmod]
        rw [ih (j + 1) (by omega) (by omega)]
        constructor
        · intro hall i hij hii hdvd
          rcases eq_or_lt_of_le hij with heq | hlt
          · exact hmod (Int.emod_eq_zero_of_dvd (heq ▸ hdvd))
          · exact hall i (by omega) hii hdvd
        · intro hall i hij hii hdvd
          exact hall i (by omega) hii hdvd
    · rw [if_neg hguard]
      constructor
      · intro _ i hi hii _
        have h1 : j * j ≤ i * i := mul_le_mul hi hi (by omega) (by omega)
        omega
      · intro _
        rfl

/-- Claim C3: is_prime answers false below 2, and from 2 on answers
true exactly when no integer i with 2 <= i and i * i <= n divides n;
moreover is_prime 2 = true, is_prime 1 = false, is_prime 17 = true and
is_prime 18 = false. -/
theorem is_prime_correct :
    (∀ n : ℤ, n < 2 → is_prime n = false) ∧
    (∀ n : ℤ, 2 ≤ n →
      (is_prime n = true ↔ ∀ i : ℤ, 2 ≤ i → i * i ≤ n → ¬ (i ∣ n))) ∧
    is_prime 2 = true ∧ is_prime 1 = false ∧
    is_prime 17 = true ∧ is_prime 18 = false := by
  refine ⟨fun n h => ?_, fun n hn => ?_, ?_, ?_, ?_, ?_⟩
  · rw [is_prime, if_pos h]
  · rw [is_prime, if_neg (by omega)]
    exact is_prime_loop_iff n (n + 1 - 2).toNat 2 (by omega) le_rfl
  · rw [is_prime]; norm_num
    rw [is_prime_loop.eq_def]; norm_num
  · rw [is_prime]; norm_num
  · rw [is_prime]; norm_num
    rw [is_prime_loop.eq_def]; norm_num
    rw [is_prime_loop.eq_def]; norm_num
    rw [is_prime_loop.eq_def]; norm_num
    rw [is_prime_loop.eq_def]; norm_num
  · rw [is_prime]; norm_num
    rw [is_prime_loop.eq_def]; norm_num

/-- Witness for the hypotheses of the C3 theorem: at n = -7 the answer
is false, and at n = 9 the loop characterization exhibits the divisor
3. -/
theorem is_prime_correct_witness :
    is_prime (-7) = false ∧
    (is_prime 9 = true ↔ ∀ i : ℤ, 2 ≤ i → i * i ≤ 9 → ¬ (i ∣ 9)) :=
  ⟨is_prime_correct.1 (-7) (by decide),
   is_prime_correct.2.1 9 (by decide)⟩

end ASTra
